import Mathlib

set_option maxRecDepth 8192

/-!
Shallow embedding of `src/RingBuffer.h` (Arduino-Ring-Buffer).

The header defines one template class `RingBuffer<T, value>` with two
specializations sharing the same occupancy logic:
  * the generic (reference-transfer) form `RingBuffer<T>`   (lines 18-148),
  * the value-transfer form `RingBuffer<T, 1>`              (lines 158-288).

All cursor and flag fields are `uint8_t`; arithmetic on them is modelled on
`Nat` with an explicit `% 256` wherever the 8-bit overflow/underflow of the
source matters.  The backing array is modelled as a `List T`; an in-range
C store `addr[i] = v` becomes `List.set`, an in-range load becomes
`List.getD`.

Two locals of `p_read` are read before ever being written in the source
(`uint8_t index` in the non-empty branch, and the returned `item` in the
empty branch).  C++ gives such reads indeterminate values, so the embedding
takes them as explicit `junkIndex` / `junkItem` parameters: every theorem
below either holds for all junk values or exhibits a concrete junk value on
which the code misbehaves.
-/

/-- Macro `#define CLEAR_BITMASK(x, y) (x &= (~y))` on `uint8_t` operands:
the 8-bit complement of `y` is `y ^^^ 255`. -/
def CLEAR_BITMASK (x y : Nat) : Nat := x &&& (y ^^^ 255)

/-- Macro `#define SET_BITMASK(x, y) (x |= (y))`. -/
def SET_BITMASK (x y : Nat) : Nat := x ||| y

/-- Macro `#define CHECK_BITMASK(x, y) (x & (y))`. -/
def CHECK_BITMASK (x y : Nat) : Nat := x &&& y

/-- Constant `#define FLAG_FULL 0x01`. -/
def FLAG_FULL : Nat := 0x01

/-- Constant `#define FLAG_EMPTY 0x02`. -/
def FLAG_EMPTY : Nat := 0x02

namespace RefForm

/-- The `ringBuff` member struct of the generic `RingBuffer<T>`
(lines 140-147): backing array, element count, the two cursors and the
flag byte.  All the scalar fields are `uint8_t` in the source. -/
structure RingBuffer (T : Type) where
  addr : List T
  arrLen : Nat
  readPos : Nat
  writePos : Nat
  flags : Nat
  deriving Repr, DecidableEq

variable {T : Type}

/-- The constructor `RingBuffer(T *arr, uint8_t elements)` (lines 25-30).
It assigns only `addr` and `arrLen`; `readPos`, `writePos` and `flags`
are left unwritten, so they keep whatever indeterminate bytes the object
memory held — modelled by the three junk parameters. -/
def RingBuffer.construct (arr : List T) (elements : Nat)
    (junkReadPos junkWritePos junkFlags : Nat) : RingBuffer T :=
  { addr := arr, arrLen := elements,
    readPos := junkReadPos, writePos := junkWritePos, flags := junkFlags }

/-- Member `uint8_t write(T const *data)` (lines 39-44): store `*data` at the
write cursor, post-increment the cursor (8-bit), reduce it `% arrLen`,
return the reduced cursor. -/
def RingBuffer.write (b : RingBuffer T) (data : T) : RingBuffer T × Nat :=
  let addr := b.addr.set b.writePos data
  let w := ((b.writePos + 1) % 256) % b.arrLen
  ({ b with addr := addr, writePos := w }, w)

/-- Member `T* read()` (lines 84-90): take the address of the slot at the read
cursor, post-increment the cursor (8-bit), reduce it `% arrLen`, return
the pointer.  The embedding returns the pointee, i.e. the element stored
in that slot. -/
def RingBuffer.read [Inhabited T] (b : RingBuffer T) : RingBuffer T × T :=
  let item := b.addr.getD b.readPos default
  ({ b with readPos := ((b.readPos + 1) % 256) % b.arrLen }, item)

/-- Member `uint8_t p_write(T const *data)` (lines 54-75).  If `FLAG_FULL` is
set: no store, return `writePos - 1` (8-bit wrap), clamped to `arrLen`
when the result exceeds `arrLen`.  Otherwise: store at the write cursor,
advance it, clear `FLAG_EMPTY`, and set `FLAG_FULL` when the advanced
cursor equals `readPos`; return the advanced cursor. -/
def RingBuffer.p_write (b : RingBuffer T) (data : T) : RingBuffer T × Nat :=
  if CHECK_BITMASK b.flags FLAG_FULL ≠ 0 then
    let ret := (b.writePos + 255) % 256
    let ret := if ret > b.arrLen then b.arrLen else ret
    (b, ret)
  else
    let addr := b.addr.set b.writePos data
    let ret := ((b.writePos + 1) % 256) % b.arrLen
    let flags := CLEAR_BITMASK b.flags FLAG_EMPTY
    let flags := if ret = b.readPos then SET_BITMASK flags FLAG_FULL else flags
    ({ b with addr := addr, writePos := ret, flags := flags }, ret)

/-- Member `T* p_read()` (lines 101-123).  The local `uint8_t index` is declared
but never assigned before the non-empty branch reads `addr[index++]`, and
the local `item` is returned unassigned in the empty branch; both
indeterminate values enter as `junkIndex` (reduced `% 256` as a `uint8_t`)
and `junkItem`.  Empty branch: `index` is computed (readPos - 1, clamped)
but unused, state is untouched, the unassigned `item` is returned.
Non-empty branch: load `addr[index]`, post-increment `index` (8-bit), set
`readPos = index % arrLen`, clear `FLAG_FULL`, set `FLAG_EMPTY` when the
incremented `index` equals `writePos`; return the loaded element.
`junkItem` also serves as the value of the out-of-bounds load when the
indeterminate `index` falls outside the array. -/
def RingBuffer.p_read (b : RingBuffer T) (junkIndex : Nat) (junkItem : T) :
    RingBuffer T × T :=
  if CHECK_BITMASK b.flags FLAG_EMPTY ≠ 0 then
    (b, junkItem)
  else
    let index := junkIndex % 256
    let item := b.addr.getD index junkItem
    let index := (index + 1) % 256
    let flags := CLEAR_BITMASK b.flags FLAG_FULL
    let flags := if index = b.writePos then SET_BITMASK flags FLAG_EMPTY else flags
    ({ b with readPos := index % b.arrLen, flags := flags }, item)

/-- Member `uint8_t isFull()` (lines 128-130): `CHECK_BITMASK(buff->flags, FLAG_FULL)`
(the source spells the member access `buff->flags`, which does not compile
on the non-pointer member `buff`; the evident intent `buff.flags` is used). -/
def RingBuffer.isFull (b : RingBuffer T) : Nat :=
  CHECK_BITMASK b.flags FLAG_FULL

/-- Member `uint8_t isEmpty()` (lines 135-137), same member-access caveat. -/
def RingBuffer.isEmpty (b : RingBuffer T) : Nat :=
  CHECK_BITMASK b.flags FLAG_EMPTY

end RefForm

namespace ValForm

/-- The `ringBuff` member struct of the specialization `RingBuffer<T, 1>`
(lines 280-287); field for field the same as the generic one. -/
structure RingBuffer (T : Type) where
  addr : List T
  arrLen : Nat
  readPos : Nat
  writePos : Nat
  flags : Nat
  deriving Repr, DecidableEq

variable {T : Type}

/-- The `RingBuffer<T,1>` constructor (lines 165-170): again only `addr`
and `arrLen` are assigned. -/
def RingBuffer.construct (arr : List T) (elements : Nat)
    (junkReadPos junkWritePos junkFlags : Nat) : RingBuffer T :=
  { addr := arr, arrLen := elements,
    readPos := junkReadPos, writePos := junkWritePos, flags := junkFlags }

/-- Member `uint8_t write(T data)` (lines 179-184): identical to the generic
`write` except the element arrives by value. -/
def RingBuffer.write (b : RingBuffer T) (data : T) : RingBuffer T × Nat :=
  let addr := b.addr.set b.writePos data
  let w := ((b.writePos + 1) % 256) % b.arrLen
  ({ b with addr := addr, writePos := w }, w)

/-- Member `T read()` (lines 224-230): copy out the element at the read cursor,
post-increment the cursor (8-bit), reduce it `% arrLen`. -/
def RingBuffer.read [Inhabited T] (b : RingBuffer T) : RingBuffer T × T :=
  let item := b.addr.getD b.readPos default
  ({ b with readPos := ((b.readPos + 1) % 256) % b.arrLen }, item)

/-- Member `uint8_t p_write(T const data)` (lines 194-215): same body as the
generic `p_write`, by-value argument. -/
def RingBuffer.p_write (b : RingBuffer T) (data : T) : RingBuffer T × Nat :=
  if CHECK_BITMASK b.flags FLAG_FULL ≠ 0 then
    let ret := (b.writePos + 255) % 256
    let ret := if ret > b.arrLen then b.arrLen else ret
    (b, ret)
  else
    let addr := b.addr.set b.writePos data
    let ret := ((b.writePos + 1) % 256) % b.arrLen
    let flags := CLEAR_BITMASK b.flags FLAG_EMPTY
    let flags := if ret = b.readPos then SET_BITMASK flags FLAG_FULL else flags
    ({ b with addr := addr, writePos := ret, flags := flags }, ret)

/-- Member `T* p_read()` (lines 241-263): same body as the generic `p_read`,
with the same two unassigned locals (`index`, `item`), except `item` is a
`T` value copied out of the slot.  (The declared return type is `T*` while
`item : T` is returned — as written this specialization member does not
even compile when instantiated; the body's value-copy logic is embedded.) -/
def RingBuffer.p_read (b : RingBuffer T) (junkIndex : Nat) (junkItem : T) :
    RingBuffer T × T :=
  if CHECK_BITMASK b.flags FLAG_EMPTY ≠ 0 then
    (b, junkItem)
  else
    let index := junkIndex % 256
    let item := b.addr.getD index junkItem
    let index := (index + 1) % 256
    let flags := CLEAR_BITMASK b.flags FLAG_FULL
    let flags := if index = b.writePos then SET_BITMASK flags FLAG_EMPTY else flags
    ({ b with readPos := index % b.arrLen, flags := flags }, item)

/-- Member `uint8_t isFull()` (lines 268-270). -/
def RingBuffer.isFull (b : RingBuffer T) : Nat :=
  CHECK_BITMASK b.flags FLAG_FULL

/-- Member `uint8_t isEmpty()` (lines 275-277). -/
def RingBuffer.isEmpty (b : RingBuffer T) : Nat :=
  CHECK_BITMASK b.flags FLAG_EMPTY

end ValForm

/-! ## Operation sequences

A call to one of the four members, with the indeterminate locals of
`p_read` made explicit. -/

/-- One buffer operation: unprotected write/read or protected write/read.
`pread` carries the indeterminate values of `p_read`'s two unassigned
locals. -/
inductive Op (T : Type) where
  | write (data : T)
  | read
  | pwrite (data : T)
  | pread (junkIndex : Nat) (junkItem : T)
  deriving Repr

/-- The result a single call hands back to the caller: an index
(`write` / `p_write`) or an element (`read` / `p_read`, where the
reference form's returned pointer is read off immediately). -/
inductive OpResult (T : Type) where
  | idx (i : Nat)
  | val (v : T)
  deriving Repr, DecidableEq

namespace RefForm

variable {T : Type}

/-- Execute one operation on the generic (reference-form) buffer. -/
def RingBuffer.step [Inhabited T] (b : RingBuffer T) : Op T → RingBuffer T × OpResult T
  | .write d => let r := b.write d; (r.1, .idx r.2)
  | .read => let r := b.read; (r.1, .val r.2)
  | .pwrite d => let r := b.p_write d; (r.1, .idx r.2)
  | .pread j x => let r := b.p_read j x; (r.1, .val r.2)

/-- Execute a sequence of operations, collecting every returned value. -/
def RingBuffer.run [Inhabited T] (b : RingBuffer T) :
    List (Op T) → RingBuffer T × List (OpResult T)
  | [] => (b, [])
  | op :: ops =>
    let r := b.step op
    let rest := r.1.run ops
    (rest.1, r.2 :: rest.2)

end RefForm

namespace ValForm

variable {T : Type}

/-- Execute one operation on the `RingBuffer<T,1>` (value-form) buffer. -/
def RingBuffer.step [Inhabited T] (b : RingBuffer T) : Op T → RingBuffer T × OpResult T
  | .write d => let r := b.write d; (r.1, .idx r.2)
  | .read => let r := b.read; (r.1, .val r.2)
  | .pwrite d => let r := b.p_write d; (r.1, .idx r.2)
  | .pread j x => let r := b.p_read j x; (r.1, .val r.2)

/-- Execute a sequence of operations, collecting every returned value. -/
def RingBuffer.run [Inhabited T] (b : RingBuffer T) :
    List (Op T) → RingBuffer T × List (OpResult T)
  | [] => (b, [])
  | op :: ops =>
    let r := b.step op
    let rest := r.1.run ops
    (rest.1, r.2 :: rest.2)

end ValForm

/-- Field-wise identification of the two specializations' states (they
have the same representation; only the data-transfer convention of the
member functions differs). -/
def toValForm {T : Type} (b : RefForm.RingBuffer T) : ValForm.RingBuffer T :=
  { addr := b.addr, arrLen := b.arrLen, readPos := b.readPos,
    writePos := b.writePos, flags := b.flags }

/-! ## Bit-level facts about the flag byte

The flag byte is a `uint8_t`, so every realizable value is `< 256`; the
facts below are checked once for all 256 values. -/

lemma clearEmpty_checkEmpty : ∀ x, x < 256 →
    CHECK_BITMASK (CLEAR_BITMASK x FLAG_EMPTY) FLAG_EMPTY = 0 := by decide

lemma setFull_clearEmpty_checkEmpty : ∀ x, x < 256 →
    CHECK_BITMASK (SET_BITMASK (CLEAR_BITMASK x FLAG_EMPTY) FLAG_FULL) FLAG_EMPTY = 0 := by
  decide

lemma setFull_checkFull : ∀ x, x < 256 →
    CHECK_BITMASK (SET_BITMASK x FLAG_FULL) FLAG_FULL ≠ 0 := by decide

lemma clearEmpty_checkFull : ∀ x, x < 256 →
    CHECK_BITMASK (CLEAR_BITMASK x FLAG_EMPTY) FLAG_FULL = CHECK_BITMASK x FLAG_FULL := by
  decide

lemma clearFull_checkFull : ∀ x, x < 256 →
    CHECK_BITMASK (CLEAR_BITMASK x FLAG_FULL) FLAG_FULL = 0 := by decide

lemma setEmpty_clearFull_checkFull : ∀ x, x < 256 →
    CHECK_BITMASK (SET_BITMASK (CLEAR_BITMASK x FLAG_FULL) FLAG_EMPTY) FLAG_FULL = 0 := by
  decide

lemma setEmpty_checkEmpty : ∀ x, x < 256 →
    CHECK_BITMASK (SET_BITMASK x FLAG_EMPTY) FLAG_EMPTY ≠ 0 := by decide

lemma clearFull_checkEmpty : ∀ x, x < 256 →
    CHECK_BITMASK (CLEAR_BITMASK x FLAG_FULL) FLAG_EMPTY = CHECK_BITMASK x FLAG_EMPTY := by
  decide

lemma clear_lt_256 : ∀ x, x < 256 →
    CLEAR_BITMASK x FLAG_EMPTY < 256 ∧ CLEAR_BITMASK x FLAG_FULL < 256 := by decide

lemma set_lt_256 : ∀ x, x < 256 →
    SET_BITMASK x FLAG_FULL < 256 ∧ SET_BITMASK x FLAG_EMPTY < 256 := by decide

/-! ## C2: protected write on a non-full buffer -/

/-- C2.  With `FLAG_FULL` clear, `p_write data` stores `data` at the write
cursor, advances the write cursor modulo capacity, leaves the read cursor
alone, clears `FLAG_EMPTY`, sets `FLAG_FULL` exactly when the advanced
write cursor equals the read cursor, and returns the post-advance write
cursor. -/
theorem p_write_notFull_spec {T : Type} (b : RefForm.RingBuffer T) (data : T)
    (hflags : b.flags < 256) (hfull : CHECK_BITMASK b.flags FLAG_FULL = 0)
    (hlen : b.arrLen ≤ 255) (hw : b.writePos < b.arrLen) :
    (b.p_write data).1.addr = b.addr.set b.writePos data ∧
    (b.p_write data).1.writePos = (b.writePos + 1) % b.arrLen ∧
    (b.p_write data).2 = (b.writePos + 1) % b.arrLen ∧
    (b.p_write data).1.readPos = b.readPos ∧
    (b.p_write data).1.arrLen = b.arrLen ∧
    CHECK_BITMASK (b.p_write data).1.flags FLAG_EMPTY = 0 ∧
    (CHECK_BITMASK (b.p_write data).1.flags FLAG_FULL ≠ 0 ↔
      (b.writePos + 1) % b.arrLen = b.readPos) := by
  have h256 : (b.writePos + 1) % 256 = b.writePos + 1 :=
    Nat.mod_eq_of_lt (by omega)
  unfold RefForm.RingBuffer.p_write
  rw [if_neg (by simp [hfull])]
  simp only [h256]
  split
  case isTrue hret =>
    refine ⟨trivial, trivial, trivial, trivial, trivial, ?_, ?_⟩
    · exact setFull_clearEmpty_checkEmpty b.flags hflags
    · simp only [hret, iff_true]
      exact setFull_checkFull _ (clear_lt_256 b.flags hflags).1
  case isFalse hret =>
    refine ⟨trivial, trivial, trivial, trivial, trivial, ?_, ?_⟩
    · exact clearEmpty_checkEmpty b.flags hflags
    · rw [clearEmpty_checkFull b.flags hflags]
      simp [hfull, hret]

/-- Witness for `p_write_notFull_spec` at a concrete buffer. -/
theorem p_write_notFull_spec_witness :
    let b : RefForm.RingBuffer Nat :=
      { addr := [5, 6], arrLen := 2, readPos := 0, writePos := 0, flags := 0 }
    b.flags < 256 ∧ CHECK_BITMASK b.flags FLAG_FULL = 0 ∧ b.arrLen ≤ 255 ∧
      b.writePos < b.arrLen ∧
      ((b.p_write 9).1.addr = b.addr.set b.writePos 9 ∧
       (b.p_write 9).1.writePos = (b.writePos + 1) % b.arrLen ∧
       (b.p_write 9).2 = (b.writePos + 1) % b.arrLen ∧
       (b.p_write 9).1.readPos = b.readPos ∧
       (b.p_write 9).1.arrLen = b.arrLen ∧
       CHECK_BITMASK (b.p_write 9).1.flags FLAG_EMPTY = 0 ∧
       (CHECK_BITMASK (b.p_write 9).1.flags FLAG_FULL ≠ 0 ↔
         (b.writePos + 1) % b.arrLen = b.readPos)) :=
  ⟨by decide, by decide, by decide, by decide,
    p_write_notFull_spec _ 9 (by decide) (by decide) (by decide) (by decide)⟩

/-! ## C3: protected write on a full buffer -/

/-- C3.  With `FLAG_FULL` set, `p_write` performs no store and changes no
state, and returns `writePos - 1`, which the 8-bit underflow at
`writePos = 0` turns into 255 and the guard then clamps to `arrLen`
(capacity); a second call returns the same sentinel. -/
theorem p_write_full_spec {T : Type} (b : RefForm.RingBuffer T) (data data2 : T)
    (hfull : CHECK_BITMASK b.flags FLAG_FULL ≠ 0)
    (hlen : b.arrLen ≤ 255) (hw : b.writePos < b.arrLen) :
    (b.p_write data).1 = b ∧
    (b.p_write data).2 = (if b.writePos = 0 then b.arrLen else b.writePos - 1) ∧
    ((b.p_write data).1.p_write data2).2 = (b.p_write data).2 := by
  have h1 : (b.p_write data).1 = b := by
    unfold RefForm.RingBuffer.p_write
    rw [if_pos hfull]
  have h2 : ∀ d : T, (b.p_write d).2 =
      (if b.writePos = 0 then b.arrLen else b.writePos - 1) := by
    intro d
    unfold RefForm.RingBuffer.p_write
    rw [if_pos hfull]
    simp only
    split <;> split <;> omega
  exact ⟨h1, h2 data, by rw [h1, h2 data2, h2 data]⟩

/-- Witness for `p_write_full_spec` at a concrete full buffer. -/
theorem p_write_full_spec_witness :
    let b : RefForm.RingBuffer Nat :=
      { addr := [5, 6], arrLen := 2, readPos := 1, writePos := 1, flags := 1 }
    CHECK_BITMASK b.flags FLAG_FULL ≠ 0 ∧ b.arrLen ≤ 255 ∧ b.writePos < b.arrLen ∧
      ((b.p_write 9).1 = b ∧
       (b.p_write 9).2 = (if b.writePos = 0 then b.arrLen else b.writePos - 1) ∧
       ((b.p_write 9).1.p_write 8).2 = (b.p_write 9).2) :=
  ⟨by decide, by decide, by decide,
    p_write_full_spec _ 9 8 (by decide) (by decide) (by decide)⟩

/-! ## C1: the non-empty branch of `p_read` reads through an unassigned index

The source (lines 111-113) loads `addr[index++]` where the local
`uint8_t index` was never assigned `b->readPos` (or anything else), so the
slot read and the new read-cursor value are governed by an indeterminate
byte, not by the read cursor. -/

/-- C1 fails on the code: on the buffer `[10, 20]` with both cursors at 0
and flags clear (so `FLAG_EMPTY` is clear), when the indeterminate local
`index` holds 1 the call returns the element 20 — not the element 10 at
the read cursor — and leaves the read cursor at 0 instead of advancing it
to `(0 + 1) % 2 = 1`. -/
theorem p_read_junk_index_bug :
    (RefForm.RingBuffer.p_read
        { addr := [10, 20], arrLen := 2, readPos := 0, writePos := 0, flags := 0 }
        1 0).2 = 20 ∧
    ¬ (RefForm.RingBuffer.p_read
        { addr := [10, 20], arrLen := 2, readPos := 0, writePos := 0, flags := 0 }
        1 0).2 = 10 ∧
    (RefForm.RingBuffer.p_read
        { addr := ([10, 20] : List Nat), arrLen := 2, readPos := 0, writePos := 0, flags := 0 }
        1 0).1.readPos = 0 := by
  decide

/-! ## C4: the empty branch of `p_read` returns an unassigned `item`

The source (lines 106-110) computes the clamped previous index into the
local `index` but never loads the element, and `item` — unassigned on this
path — is what line 122 returns. -/

/-- C4 fails on the code: on an EMPTY buffer whose last successful read
returned the element 10 from slot 0, `p_read` returns whatever the
unassigned local `item` happens to hold (here 99, or 77 on a second run
with different stack garbage), not the previously returned element 10.
The state is indeed left unchanged. -/
theorem p_read_empty_junk_item_bug :
    (RefForm.RingBuffer.p_read
        { addr := [10, 20], arrLen := 2, readPos := 1, writePos := 1, flags := 2 }
        0 99).2 = 99 ∧
    (RefForm.RingBuffer.p_read
        { addr := [10, 20], arrLen := 2, readPos := 1, writePos := 1, flags := 2 }
        0 77).2 = 77 ∧
    (RefForm.RingBuffer.p_read
        { addr := ([10, 20] : List Nat), arrLen := 2, readPos := 1, writePos := 1, flags := 2 }
        0 99).1 =
      { addr := [10, 20], arrLen := 2, readPos := 1, writePos := 1, flags := 2 } := by
  decide

/-! ## C6: the constructor leaves the flag byte unassigned

Lines 25-30 (and 165-170) assign only `addr` and `arrLen`; `readPos`,
`writePos` and `flags` keep the indeterminate bytes of the object's
memory, so the flags are not cleared by construction. -/

/-- C6 fails on the code: constructing a buffer over memory whose flag
byte happened to hold `FLAG_FULL ||| FLAG_EMPTY = 3` yields a freshly
constructed buffer on which `isFull` and `isEmpty` both report nonzero
(true) before any operation. -/
theorem construct_junk_flags_bug :
    (RefForm.RingBuffer.construct ([0] : List Nat) 1 0 0
        (SET_BITMASK FLAG_FULL FLAG_EMPTY)).isFull ≠ 0 ∧
    (RefForm.RingBuffer.construct ([0] : List Nat) 1 0 0
        (SET_BITMASK FLAG_FULL FLAG_EMPTY)).isEmpty ≠ 0 := by
  decide

/-! ## C5: FULL and EMPTY are mutually exclusive under protected operations -/

/-- Whether an operation belongs to the protected (occupancy-checked)
family `p_write` / `p_read`. -/
def Op.isChecked {T : Type} : Op T → Bool
  | .pwrite _ => true
  | .pread _ _ => true
  | _ => false

/-- The flag byte is a realizable `uint8_t` and does not have both
`FLAG_FULL` and `FLAG_EMPTY` set. -/
def FlagInv (f : Nat) : Prop :=
  f < 256 ∧ (CHECK_BITMASK f FLAG_FULL = 0 ∨ CHECK_BITMASK f FLAG_EMPTY = 0)

lemma flagInv_p_write {T : Type} (b : RefForm.RingBuffer T) (d : T)
    (h : FlagInv b.flags) : FlagInv (b.p_write d).1.flags := by
  unfold RefForm.RingBuffer.p_write
  split
  · exact h
  · simp only
    split
    · refine ⟨(set_lt_256 _ (clear_lt_256 _ h.1).1).1, Or.inr ?_⟩
      exact setFull_clearEmpty_checkEmpty _ h.1
    · exact ⟨(clear_lt_256 _ h.1).1, Or.inr (clearEmpty_checkEmpty _ h.1)⟩

lemma flagInv_p_read {T : Type} (b : RefForm.RingBuffer T) (j : Nat) (x : T)
    (h : FlagInv b.flags) : FlagInv (b.p_read j x).1.flags := by
  unfold RefForm.RingBuffer.p_read
  split
  · exact h
  · simp only
    split
    · refine ⟨(set_lt_256 _ (clear_lt_256 _ h.1).2).2, Or.inl ?_⟩
      exact setEmpty_clearFull_checkFull _ h.1
    · exact ⟨(clear_lt_256 _ h.1).2, Or.inl (clearFull_checkFull _ h.1)⟩

lemma flagInv_run {T : Type} [Inhabited T] (ops : List (Op T))
    (b : RefForm.RingBuffer T) (hops : ∀ op ∈ ops, op.isChecked = true)
    (h : FlagInv b.flags) : FlagInv (b.run ops).1.flags := by
  induction ops generalizing b with
  | nil => exact h
  | cons op ops ih =>
    have hop : op.isChecked = true := hops op (by simp)
    have hrest : ∀ o ∈ ops, Op.isChecked o = true := by
      intro o ho
      exact hops o (by simp [ho])
    cases op with
    | write d => simp [Op.isChecked] at hop
    | read => simp [Op.isChecked] at hop
    | pwrite d =>
      exact ih _ hrest (flagInv_p_write b d h)
    | pread j x =>
      exact ih _ hrest (flagInv_p_read b j x h)

/-- C5.  Starting from a buffer whose `FLAG_FULL` and `FLAG_EMPTY` are
both clear, after any finite sequence of protected operations (`p_write`
and `p_read` only, with arbitrary data and arbitrary values of `p_read`'s
indeterminate locals) the buffer never reports full and empty at the same
time. -/
theorem protected_flags_mutually_exclusive {T : Type} [Inhabited T]
    (b : RefForm.RingBuffer T) (ops : List (Op T))
    (hops : ∀ op ∈ ops, op.isChecked = true)
    (hbyte : b.flags < 256) (hfull : b.isFull = 0) (hempty : b.isEmpty = 0) :
    ¬ ((b.run ops).1.isFull ≠ 0 ∧ (b.run ops).1.isEmpty ≠ 0) := by
  have h := flagInv_run ops b hops ⟨hbyte, Or.inl hfull⟩
  rcases h.2 with h2 | h2
  · exact fun hc => hc.1 h2
  · exact fun hc => hc.2 h2

/-- Witness for `protected_flags_mutually_exclusive`: a fresh zeroed
buffer of capacity 2 run through a fill-and-drain protected sequence. -/
theorem protected_flags_mutually_exclusive_witness :
    let b : RefForm.RingBuffer Nat :=
      { addr := [0, 0], arrLen := 2, readPos := 0, writePos := 0, flags := 0 }
    let ops : List (Op Nat) := [.pwrite 1, .pwrite 2, .pwrite 3, .pread 0 0, .pread 1 0]
    (∀ op ∈ ops, op.isChecked = true) ∧ b.flags < 256 ∧ b.isFull = 0 ∧
      b.isEmpty = 0 ∧ ¬ ((b.run ops).1.isFull ≠ 0 ∧ (b.run ops).1.isEmpty ≠ 0) :=
  ⟨by decide, by decide, by decide, by decide,
    protected_flags_mutually_exclusive _ _ (by decide) (by decide) (by decide) (by decide)⟩

/-! ## C7: cursors stay inside `[0, capacity)` -/

lemma step_arrLen {T : Type} [Inhabited T] (b : RefForm.RingBuffer T) (op : Op T) :
    (b.step op).1.arrLen = b.arrLen := by
  cases op with
  | write d => rfl
  | read => rfl
  | pwrite d =>
    simp only [RefForm.RingBuffer.step, RefForm.RingBuffer.p_write]
    split <;> rfl
  | pread j x =>
    simp only [RefForm.RingBuffer.step, RefForm.RingBuffer.p_read]
    split <;> rfl

lemma step_cursor_lt {T : Type} [Inhabited T] (b : RefForm.RingBuffer T) (op : Op T)
    (hlen : 1 ≤ b.arrLen) (hr : b.readPos < b.arrLen) (hw : b.writePos < b.arrLen) :
    (b.step op).1.readPos < b.arrLen ∧ (b.step op).1.writePos < b.arrLen := by
  have hmod : ∀ n : Nat, n % b.arrLen < b.arrLen := fun n => Nat.mod_lt n (by omega)
  cases op with
  | write d => exact ⟨hr, hmod _⟩
  | read => exact ⟨hmod _, hw⟩
  | pwrite d =>
    simp only [RefForm.RingBuffer.step, RefForm.RingBuffer.p_write]
    split
    · exact ⟨hr, hw⟩
    · exact ⟨hr, hmod _⟩
  | pread j x =>
    simp only [RefForm.RingBuffer.step, RefForm.RingBuffer.p_read]
    split
    · exact ⟨hr, hw⟩
    · exact ⟨hmod _, hw⟩

/-- C7.  If the capacity is at least 1 and both cursors start in
`[0, capacity)`, then after any sequence of `write`, `read`, `p_write`
and `p_read` calls both cursors are still in `[0, capacity)` (so in
particular after every single operation, since every prefix is itself
such a sequence). -/
theorem cursors_stay_in_range {T : Type} [Inhabited T]
    (b : RefForm.RingBuffer T) (ops : List (Op T))
    (hlen : 1 ≤ b.arrLen) (hr : b.readPos < b.arrLen) (hw : b.writePos < b.arrLen) :
    (b.run ops).1.readPos < (b.run ops).1.arrLen ∧
    (b.run ops).1.writePos < (b.run ops).1.arrLen := by
  induction ops generalizing b with
  | nil => exact ⟨hr, hw⟩
  | cons op ops ih =>
    have hstep := step_cursor_lt b op hlen hr hw
    have harr := step_arrLen b op
    exact ih (b.step op).1 (harr ▸ hlen) (harr ▸ hstep.1) (harr ▸ hstep.2)

/-- Witness for `cursors_stay_in_range` on a concrete capacity-2 buffer
run through one operation of each kind. -/
theorem cursors_stay_in_range_witness :
    let b : RefForm.RingBuffer Nat :=
      { addr := [0, 0], arrLen := 2, readPos := 0, writePos := 0, flags := 0 }
    let ops : List (Op Nat) := [.write 4, .read, .pwrite 5, .pread 3 0]
    1 ≤ b.arrLen ∧ b.readPos < b.arrLen ∧ b.writePos < b.arrLen ∧
      ((b.run ops).1.readPos < (b.run ops).1.arrLen ∧
       (b.run ops).1.writePos < (b.run ops).1.arrLen) :=
  ⟨by decide, by decide, by decide,
    cursors_stay_in_range _ _ (by decide) (by decide) (by decide)⟩

/-! ## C8: the `RingBuffer<T,1>` specialization matches the generic form -/

lemma step_toValForm {T : Type} [Inhabited T] (b : RefForm.RingBuffer T) (op : Op T) :
    (toValForm b).step op = (toValForm (b.step op).1, (b.step op).2) := by
  cases op with
  | write d => rfl
  | read => rfl
  | pwrite d =>
    simp only [RefForm.RingBuffer.step, ValForm.RingBuffer.step,
      RefForm.RingBuffer.p_write, ValForm.RingBuffer.p_write, toValForm]
    split
    · rfl
    · split <;> rfl
  | pread j x =>
    simp only [RefForm.RingBuffer.step, ValForm.RingBuffer.step,
      RefForm.RingBuffer.p_read, ValForm.RingBuffer.p_read, toValForm]
    split
    · rfl
    · split <;> rfl

/-- C8.  Run from identified states (same storage, capacity, cursors and
flags), the value-form specialization `RingBuffer<T,1>` and the generic
reference form produce the same final state — hence identical cursor
values and flag transitions — and the very same list of returned indices
and retrieved element contents, for every operation sequence (the
indeterminate locals of `p_read` being resolved the same way on both
sides). -/
theorem value_form_matches_reference_form {T : Type} [Inhabited T]
    (b : RefForm.RingBuffer T) (ops : List (Op T)) :
    (toValForm b).run ops = (toValForm (b.run ops).1, (b.run ops).2) := by
  induction ops generalizing b with
  | nil => rfl
  | cons op ops ih =>
    simp only [ValForm.RingBuffer.run, RefForm.RingBuffer.run, step_toValForm, ih]

/-! ## C9: wraparound of the unprotected write cursor -/

/-- A sequence of unprotected `write` calls, one per element of `ds`. -/
def RefForm.RingBuffer.writeSeq {T : Type} (b : RefForm.RingBuffer T)
    (ds : List T) : RefForm.RingBuffer T :=
  ds.foldl (fun s d => (s.write d).1) b

lemma writeSeq_writePos {T : Type} (ds : List T) (b : RefForm.RingBuffer T)
    (hlen : b.arrLen ≤ 255) (hpos : 1 ≤ b.arrLen) (hw : b.writePos < b.arrLen) :
    (b.writeSeq ds).writePos = (b.writePos + ds.length) % b.arrLen ∧
    (b.writeSeq ds).arrLen = b.arrLen := by
  induction ds generalizing b with
  | nil =>
    refine ⟨?_, rfl⟩
    simp [RefForm.RingBuffer.writeSeq, Nat.mod_eq_of_lt hw]
  | cons d ds ih =>
    have h256 : (b.writePos + 1) % 256 = b.writePos + 1 :=
      Nat.mod_eq_of_lt (by omega)
    have hstep : ((b.write d).1).writePos = (b.writePos + 1) % b.arrLen := by
      simp [RefForm.RingBuffer.write, h256]
    have harr : ((b.write d).1).arrLen = b.arrLen := rfl
    have hw1 : ((b.write d).1).writePos < b.arrLen := by
      rw [hstep]; exact Nat.mod_lt _ (by omega)
    have := ih (b.write d).1 (harr ▸ hlen) (harr ▸ hpos) (harr ▸ hw1)
    rw [harr] at this
    refine ⟨?_, this.2⟩
    rw [show b.writeSeq (d :: ds) = ((b.write d).1).writeSeq ds from rfl,
      this.1, hstep, Nat.mod_add_mod]
    simp only [List.length_cons]
    congr 1
    omega

/-- C9.  For a buffer whose write cursor starts at 0 with
`1 ≤ capacity ≤ 255` (the range of the `uint8_t` capacity field), after
`capacity` consecutive unprotected writes the write cursor is back at 0,
and the next (capacity+1-th) write stores its element into slot 0 of the
backing array — the slot the first of those writes filled. -/
theorem wraparound_write_cursor {T : Type} (b : RefForm.RingBuffer T)
    (ds : List T) (d : T)
    (hlen : b.arrLen ≤ 255) (hpos : 1 ≤ b.arrLen) (hw0 : b.writePos = 0)
    (hcount : ds.length = b.arrLen) :
    (b.writeSeq ds).writePos = 0 ∧
    ((b.writeSeq ds).write d).1.addr = (b.writeSeq ds).addr.set 0 d := by
  have h := writeSeq_writePos ds b hlen hpos (by omega)
  have hcur : (b.writeSeq ds).writePos = 0 := by
    rw [h.1, hw0, hcount, Nat.zero_add, Nat.mod_self]
  refine ⟨hcur, ?_⟩
  simp [RefForm.RingBuffer.write, hcur]

/-- Witness for `wraparound_write_cursor`: capacity 2, writes 7 then 8,
then a wrapping write of 9. -/
theorem wraparound_write_cursor_witness :
    let b : RefForm.RingBuffer Nat :=
      { addr := [0, 0], arrLen := 2, readPos := 0, writePos := 0, flags := 0 }
    b.arrLen ≤ 255 ∧ 1 ≤ b.arrLen ∧ b.writePos = 0 ∧ [7, 8].length = b.arrLen ∧
      ((b.writeSeq [7, 8]).writePos = 0 ∧
       ((b.writeSeq [7, 8]).write 9).1.addr = (b.writeSeq [7, 8]).addr.set 0 9) :=
  ⟨by decide, by decide, by decide, by decide,
    wraparound_write_cursor _ [7, 8] 9 (by decide) (by decide) (by decide) (by decide)⟩

/-! ## C10: the capacity-4 scenario over 4-byte integers

`sizeof(int32_t) = 4 > 2`, so the default specialization selector
`(sizeof(T) <= 2)` picks the generic (reference) form; elements are
modelled as `Int`. -/

/-- C10.  On a capacity-4 buffer with both cursors at 0: after unprotected
writes of 10, 20, 30, 40, four unprotected reads return 10, 20, 30, 40 in
order; if instead a fifth write of 50 happens before any read, the read
cursor is still 0 and the first read then returns 50, the slot holding 10
having been overwritten. -/
theorem scenario_capacity_four :
    (((RefForm.RingBuffer.run
        ({ addr := [0, 0, 0, 0], arrLen := 4, readPos := 0, writePos := 0,
           flags := 0 } : RefForm.RingBuffer Int)
        ([.write 10, .write 20, .write 30, .write 40] : List (Op Int))).1.run
        [.read, .read, .read, .read]).2 =
      ([.val 10, .val 20, .val 30, .val 40] : List (OpResult Int))) ∧
    ((RefForm.RingBuffer.run
        ({ addr := [0, 0, 0, 0], arrLen := 4, readPos := 0, writePos := 0,
           flags := 0 } : RefForm.RingBuffer Int)
        ([.write 10, .write 20, .write 30, .write 40, .write 50] : List (Op Int))).1.readPos
      = 0) ∧
    (((RefForm.RingBuffer.run
        ({ addr := [0, 0, 0, 0], arrLen := 4, readPos := 0, writePos := 0,
           flags := 0 } : RefForm.RingBuffer Int)
        ([.write 10, .write 20, .write 30, .write 40, .write 50] : List (Op Int))).1.read).2
      = (50 : Int)) := by
  decide
